import Mathlib

/-
Verification development for the GoogleAnalytics report pipeline
(source: src/__init__.py).

The pipeline under verification:
  get_ga_data      : parse one Analytics Reporting API v4 response into row dicts
  get_response     : detect sampling, compute the page-offset sequence, fetch all
                     pages, concatenate rows, strip the vendor prefix from columns
  get_dataframes   : retry wrapper with exponential backoff

Modelling conventions:
  - Python exceptions are an explicit `PyErr` value in an `Except`.
  - A Python dict is an association list with Python's assignment semantics
    (update in place if the key exists, append otherwise); every dict in this
    program is built from `{}` by such assignments, so keys never repeat.
  - Python `float(s)` / `int(s)` string parsing is modelled exactly over ASCII
    decimal forms (optional surrounding whitespace, sign, digit groups with
    single underscores between digits, fraction, exponent, inf/nan keywords);
    the parsed float value is kept as an exact rational, since the program only
    ever stores it, never computes with it: parse success/failure and the
    int-versus-float tag are the observable facts.
  - The network call `get_report` is a parameter `fetch : String → Response`
    mapping a page token to the response that the service returns for it.
-/

/-- Python exceptions that the modelled code can raise.  `sampledDataError`
models the `SampledDataError` class defined in the source. -/
inductive PyErr where
  | valueError
  | typeError
  | indexError
  | sampledDataError
deriving DecidableEq

/-- The value of a Python float: a finite value kept as an exact rational,
an infinity, or nan. -/
inductive PyFloat where
  | finite (q : ℚ)
  | infinite (neg : Bool)
  | nan
deriving DecidableEq

/-- A value stored in a row dict by `get_ga_data`: a dimension string, an int
from `int(value)`, or a float from `float(value)`. -/
inductive GAValue where
  | str (s : String)
  | int (n : Int)
  | float (f : PyFloat)
deriving DecidableEq

/-- Whitespace characters stripped by Python's numeric-string conversion
(ASCII subset). -/
def pyWhitespace : List Char := [' ', '\t', '\n', '\r', Char.ofNat 11, Char.ofNat 12]

/-- Strip leading and trailing whitespace. -/
def trimWs (cs : List Char) : List Char :=
  ((cs.dropWhile (fun c => pyWhitespace.contains c)).reverse.dropWhile
    (fun c => pyWhitespace.contains c)).reverse

/-- Scan a maximal digit group, allowing a single underscore between two
digits (Python numeric literal grouping).  Returns the digits read and the
unconsumed remainder. -/
def digitGroup : List Char → List Char × List Char
  | [] => ([], [])
  | [c] => if c.isDigit then ([c], []) else ([], [c])
  | c :: d :: rest =>
    if c.isDigit then
      let r := digitGroup (d :: rest)
      (c :: r.1, r.2)
    else if c = '_' ∧ d.isDigit then
      let r := digitGroup rest
      (d :: r.1, r.2)
    else ([], c :: d :: rest)

/-- A digit group must begin with a digit (no leading underscore). -/
def parseDigitGroup (cs : List Char) : Option (List Char × List Char) :=
  match cs with
  | c :: _ => if c.isDigit then some (digitGroup cs) else none
  | [] => none

/-- Numeric value of a digit list. -/
def natOfDigits (ds : List Char) : Nat :=
  ds.foldl (fun acc c => 10 * acc + (c.toNat - Char.toNat '0')) 0

/-- Python `int(s)` on a character list: whitespace, optional sign, one digit
group, nothing else. -/
def pyIntCore (cs : List Char) : Option Int :=
  match trimWs cs with
  | '+' :: rest =>
    match parseDigitGroup rest with
    | some (ds, []) => some ((natOfDigits ds : Nat) : Int)
    | _ => none
  | '-' :: rest =>
    match parseDigitGroup rest with
    | some (ds, []) => some (-((natOfDigits ds : Nat) : Int))
    | _ => none
  | rest =>
    match parseDigitGroup rest with
    | some (ds, []) => some ((natOfDigits ds : Nat) : Int)
    | _ => none

/-- Python `int(s)`. -/
def pyInt (s : String) : Option Int := pyIntCore s.data

/-- A computable integer power of ten over the rationals. -/
def pow10 (e : Int) : ℚ :=
  if 0 ≤ e then (((10 : Nat) ^ e.toNat : Nat) : ℚ)
  else (1 : ℚ) / (((10 : Nat) ^ (-e).toNat : Nat) : ℚ)

/-- Value of a fraction digit list `ds` read after the decimal point. -/
def fracVal (ds : List Char) : ℚ :=
  (natOfDigits ds : ℚ) / (((10 : Nat) ^ ds.length : Nat) : ℚ)

/-- Mantissa of a float literal: `digits [. [digits]]` or `. digits`. -/
def parseMantissa (cs : List Char) : Option (ℚ × List Char) :=
  match parseDigitGroup cs with
  | some (ip, rest) =>
    match rest with
    | '.' :: rest2 =>
      match parseDigitGroup rest2 with
      | some (fp, rest3) => some ((natOfDigits ip : ℚ) + fracVal fp, rest3)
      | none => some ((natOfDigits ip : ℚ), rest2)
    | _ => some ((natOfDigits ip : ℚ), rest)
  | none =>
    match cs with
    | '.' :: rest2 =>
      match parseDigitGroup rest2 with
      | some (fp, rest3) => some (fracVal fp, rest3)
      | none => none
    | _ => none

/-- Signed exponent digits after `e`/`E`. -/
def parseSignedExp (cs : List Char) : Option (Int × List Char) :=
  match cs with
  | '+' :: rest =>
    match parseDigitGroup rest with
    | some (ds, r) => some (((natOfDigits ds : Nat) : Int), r)
    | none => none
  | '-' :: rest =>
    match parseDigitGroup rest with
    | some (ds, r) => some (-((natOfDigits ds : Nat) : Int), r)
    | none => none
  | rest =>
    match parseDigitGroup rest with
    | some (ds, r) => some (((natOfDigits ds : Nat) : Int), r)
    | none => none

/-- Optional exponent part of a float literal. -/
def parseExponent (cs : List Char) : Option (Int × List Char) :=
  match cs with
  | 'e' :: rest => parseSignedExp rest
  | 'E' :: rest => parseSignedExp rest
  | rest => some (0, rest)

/-- Python `float(s)` on a character list: whitespace, optional sign, then a
mantissa with optional exponent, or the keywords inf/infinity/nan
(case-insensitive). -/
def pyFloatCore (cs : List Char) : Option PyFloat :=
  let t := trimWs cs
  let sgn : Bool × List Char :=
    match t with
    | '+' :: rest => (false, rest)
    | '-' :: rest => (true, rest)
    | rest => (false, rest)
  let low := sgn.2.map Char.toLower
  if low = ("inf").data ∨ low = ("infinity").data then some (.infinite sgn.1)
  else if low = ("nan").data then some PyFloat.nan
  else
    match parseMantissa sgn.2 with
    | none => none
    | some (m, rest) =>
      match parseExponent rest with
      | some (ex, []) => some (.finite ((if sgn.1 then (-1 : ℚ) else 1) * m * pow10 ex))
      | _ => none

/-- Python `float(s)`. -/
def pyFloat (s : String) : Option PyFloat := pyFloatCore s.data

/-- The numeric-sniffing test of `get_ga_data`: `',' in value or '.' in value`. -/
def hasCommaOrDot (s : String) : Bool := s.data.contains ',' || s.data.contains '.'

/-- One metric-value conversion of `get_ga_data` (src/__init__.py lines
101-104): `float(value)` when the string contains a comma or a dot, else
`int(value)`; a parse failure is Python's `ValueError`. -/
def convertMetric (v : String) : Except PyErr GAValue :=
  if hasCommaOrDot v then
    match pyFloat v with
    | some f => .ok (.float f)
    | none => .error .valueError
  else
    match pyInt v with
    | some n => .ok (.int n)
    | none => .error .valueError

/-- A Python dict from string keys to `GAValue`, as an association list.
Every dict in this program is built from `{}` by assignments, so keys are
unique. -/
abbrev Dict := List (String × GAValue)

/-- Python dict assignment `d[k] = v`: update in place if `k` is present,
append otherwise. -/
def dictSet : Dict → String → GAValue → Dict
  | [], k, v => [(k, v)]
  | p :: rest, k, v => if p.1 = k then (k, v) :: rest else p :: dictSet rest k v

/-- Python dict lookup `d.get(k)`. -/
def dictGet : Dict → String → Option GAValue
  | [], _ => none
  | p :: rest, k => if p.1 = k then some p.2 else dictGet rest k

/-- `columnHeader` of a report.  `metricHeaderEntries` holds the `name` field
of each entry of `columnHeader.metricHeader.metricHeaderEntries`, the only
field the source reads. -/
structure ColumnHeader where
  dimensions : List String := []
  metricHeaderEntries : List String := []
deriving DecidableEq

/-- One row of a report.  Each element of `metrics` models one dateRange
values object: `some vs` is its `values` list, `none` a missing `values` key
(Python `values.get('values')` returning `None`, on which `zip` raises
`TypeError`). -/
structure GARow where
  dimensions : List String := []
  metrics : List (Option (List String)) := []
deriving DecidableEq

/-- The `data` object of a report. -/
structure ReportData where
  rows : List GARow := []
  rowCount : Option Int := none
  samplesReadCounts : List Int := []
  samplingSpaceSizes : List Int := []
deriving DecidableEq

/-- One report of a response. -/
structure Report where
  columnHeader : ColumnHeader := {}
  data : ReportData := {}
  nextPageToken : Option String := none
deriving DecidableEq

/-- An Analytics Reporting API v4 response. -/
structure Response where
  reports : List Report := []
deriving DecidableEq

/-- The per-row body of `get_ga_data` (src/__init__.py lines 89-106): fill a
dict with dimension header/value pairs, then for each dateRange values object
convert each metric value and assign it under the metric header name. -/
def processRow (dimensionHeaders metricHeaders : List String) (row : GARow) :
    Except PyErr Dict :=
  let d0 := (dimensionHeaders.zip row.dimensions).foldl
    (fun d hv => dictSet d hv.1 (.str hv.2)) ([] : Dict)
  row.metrics.foldlM
    (fun d ovalues =>
      match ovalues with
      | none => .error .typeError
      | some values =>
        (metricHeaders.zip values).foldlM
          (fun d hv => (convertMetric hv.2).map (fun x => dictSet d hv.1 x)) d)
    d0

/-- `get_ga_data` (src/__init__.py lines 77-107): iterate the reports and
their rows, producing one dict per row; errors propagate at the first bad
value, exactly where Python would raise. -/
def get_ga_data (response : Response) : Except PyErr (List Dict) := do
  let rowLists ← response.reports.mapM
    (fun report => report.data.rows.mapM
      (processRow report.columnHeader.dimensions report.columnHeader.metricHeaderEntries))
  return rowLists.flatten

/-- Left-to-right non-overlapping removal of every occurrence of `"ga:"`,
the semantics of `str.replace('ga:', '')` applied by
`df.columns.str.replace('ga:', '')` (src/__init__.py line 183). -/
def stripGAList : List Char → List Char
  | 'g' :: 'a' :: ':' :: rest => stripGAList rest
  | c :: rest => c :: stripGAList rest
  | [] => []

/-- Column-name normalization: remove every occurrence of `"ga:"`. -/
def stripGA (s : String) : String := ⟨stripGAList s.data⟩

/-- Whether `"ga:"` occurs as a substring. -/
def containsGA : List Char → Bool
  | 'g' :: 'a' :: ':' :: _ => true
  | _ :: rest => containsGA rest
  | [] => false

/-- Column labels pandas infers for `pd.DataFrame(list_of_dicts)`: the union
of the dict keys in first-seen order. -/
def dfColumns (rows : List Dict) : List String :=
  rows.foldl
    (fun acc d => d.foldl (fun acc p => if acc.contains p.1 then acc else acc ++ [p.1]) acc)
    []

/-- The DataFrame returned by `get_response`: the row dicts (values untouched)
together with the column labels after prefix stripping. -/
structure DataFrame where
  rows : List Dict
  columns : List String
deriving DecidableEq

/-- The offset accumulation loop of `get_response` (src/__init__.py lines
165-167): `for i in range(k): offset_list.append(offset); offset += 100000`
starting from `offset = 0`. -/
def offsetsFrom : Nat → Int → List Int
  | 0, _ => []
  | k + 1, off => off :: offsetsFrom k (off + 100000)

/-- `math.ceil(a / b)` for positive `b` (exact division; the source divides
Python ints whose quotient is exact in double precision at every realistic
row count). -/
def pyCeilDiv (a b : Int) : Int := (a + b - 1).ediv b

/-- The page loop of `get_response` (src/__init__.py lines 175-179): fetch
each token in order, extract its rows, concatenate.  Returns the tokens
actually fetched together with the accumulated rows or the first error. -/
def fetchPages (fetch : String → Response) : List String → List String × Except PyErr (List Dict)
  | [] => ([], .ok [])
  | t :: ts =>
    match get_ga_data (fetch t) with
    | .error e => ([t], .error e)
    | .ok rows =>
      let r := fetchPages fetch ts
      (t :: r.1, match r.2 with
        | .error e => .error e
        | .ok rest => .ok (rows ++ rest))

/-- `get_response` (src/__init__.py lines 109-184).  Mirrors the source's
statement order: index `reports[0]` (IndexError on an empty list), read
`rowCount`, extract the first page (propagating its errors), compute
`row_count - len(...)` (TypeError when `rowCount` is absent), raise
`SampledDataError` on a sampling indicator, build the offset list, then fetch
every token and assemble the DataFrame.  The first component is the list of
tokens fetched by the page loop. -/
def get_response (fetch : String → Response) (response : Response) :
    List String × Except PyErr DataFrame :=
  match response.reports.head? with
  | none => ([], .error .indexError)
  | some report0 =>
    match get_ga_data response with
    | .error e => ([], .error e)
    | .ok _ =>
      match report0.data.rowCount with
      | none => ([], .error .typeError)
      | some row_count =>
        if report0.data.samplesReadCounts ≠ [] ∨ report0.data.samplingSpaceSizes ≠ [] then
          ([], .error .sampledDataError)
        else
          let offset_list : List Int :=
            if 100000 < row_count ∧ report0.nextPageToken.isSome = true then
              offsetsFrom (pyCeilDiv row_count 100000).toNat 0
            else [0]
          let tokens := offset_list.map (fun o => toString o)
          let r := fetchPages fetch tokens
          (r.1, r.2.map (fun completeData =>
            ⟨completeData, (dfColumns completeData).map stripGA⟩))

/-- The body of one `get_dataframes` attempt (src/__init__.py lines 245-250):
fetch the first page with token `'0'`, then hand it to `get_response`.  The
first component collects every token fetched for the query, the initial
request included. -/
def run_query (fetch : String → Response) : List String × Except PyErr DataFrame :=
  let response := fetch ("0")
  let r := get_response fetch response
  (("0") :: r.1, r.2)

/-- The outcome of one attempt of the retry loop in `get_dataframes`:
a returned DataFrame, an HTTPError carrying `error.resp.reason`, or any other
exception (which the `except HTTPError` clause does not catch). -/
inductive AttemptOutcome where
  | ok (df : DataFrame)
  | httpErr (reason : String)
  | exn (e : PyErr)
deriving DecidableEq

/-- What `get_dataframes` produces: a DataFrame via `return`, the implicit
`None` when the loop ends or `break`s, or an uncaught exception. -/
inductive RetryResult where
  | returned (df : DataFrame)
  | noResult
  | raised (e : PyErr)
deriving DecidableEq

/-- The reasons `get_dataframes` treats as retryable (src/__init__.py
line 253). -/
def RETRYABLE : List String :=
  ["userRateLimitExceeded", "quotaExceeded", "internalServerError", "backendError"]

/-- The retry loop of `get_dataframes` (src/__init__.py lines 243-257),
unrolled from attempt `n` with `fuel` iterations left.  `attempt i` is the
outcome of the `i`-th try body; `jitter i` models `random.random()` at that
attempt.  Returns the result, the backoff sleep durations in order, and the
number of attempts made. -/
def retryAux (attempt : Nat → AttemptOutcome) (jitter : Nat → ℚ) :
    Nat → Nat → RetryResult × List ℚ × Nat
  | _, 0 => (.noResult, [], 0)
  | n, fuel + 1 =>
    match attempt n with
    | .ok df => (.returned df, [], 1)
    | .exn e => (.raised e, [], 1)
    | .httpErr r =>
      if RETRYABLE.contains r then
        let rest := retryAux attempt jitter (n + 1) fuel
        (rest.1, ((2 : ℚ) ^ n + jitter n) :: rest.2.1, rest.2.2 + 1)
      else (.noResult, [], 1)

/-- `get_dataframes` as the retry loop `for n in range(0, 5)`. -/
def get_dataframes (attempt : Nat → AttemptOutcome) (jitter : Nat → ℚ) :
    RetryResult × List ℚ × Nat :=
  retryAux attempt jitter 0 5

/-- The dimension assignments a row performs: header paired with the raw
dimension string, in order (src/__init__.py lines 96-97). -/
def dimAssigns (dimensionHeaders dims : List String) : List (String × GAValue) :=
  (dimensionHeaders.zip dims).map (fun p => (p.1, GAValue.str p.2))

/-- One metric conversion with provenance: the header name, the source string
and the converted value. -/
def convEntry (p : String × String) : Except PyErr (String × String × GAValue) :=
  (convertMetric p.2).map (fun x => (p.1, p.2, x))

/-- The assignments one dateRange values object produces: its values zipped
with the metric headers and converted in order. -/
def convSet (metricHeaders : List String) (ovs : Option (List String)) :
    Except PyErr (List (String × String × GAValue)) :=
  match ovs with
  | none => Except.error PyErr.typeError
  | some vs => (metricHeaders.zip vs).mapM convEntry

/-- The metric assignments a row performs, with provenance: for each dateRange
values object in order, each `(header name, source string, converted value)`
triple in order (src/__init__.py lines 99-104). -/
def metricAssigns (metricHeaders : List String) (valueSets : List (Option (List String))) :
    Except PyErr (List (String × String × GAValue)) := do
  let ls ← valueSets.mapM (convSet metricHeaders)
  return ls.flatten

/-- Perform a sequence of dict assignments in order. -/
def applyAssigns (d : Dict) (al : List (String × GAValue)) : Dict :=
  al.foldl (fun d a => dictSet d a.1 a.2) d

/-- The value of the last assignment to key `k` in an assignment sequence,
if any. -/
def lastAssign : List (String × GAValue) → String → Option GAValue
  | [], _ => none
  | a :: al, k =>
    match lastAssign al k with
    | some v => some v
    | none => if a.1 = k then some a.2 else none

/-- A 250000-row first page: one data row, a continuation token. -/
def exPage1 : Response :=
  ⟨[⟨⟨[("ga:d")], [("ga:m")]⟩,
     ⟨[⟨[("a")], [some [("1")]]⟩], some 250000, [], []⟩,
     some ("tok")⟩]⟩

/-- The second page of the 250000-row query. -/
def exPage2 : Response :=
  ⟨[⟨⟨[("ga:d")], [("ga:m")]⟩,
     ⟨[⟨[("b")], [some [("2")]]⟩], none, [], []⟩,
     none⟩]⟩

/-- The third page of the 250000-row query. -/
def exPage3 : Response :=
  ⟨[⟨⟨[("ga:d")], [("ga:m")]⟩,
     ⟨[⟨[("c")], [some [("3")]]⟩], none, [], []⟩,
     none⟩]⟩

/-- The paging service of the 250000-row query. -/
def exFetch1 : String → Response := fun t =>
  if t = ("100000") then exPage2 else if t = ("200000") then exPage3 else exPage1

/-- A sampled first page whose only metric value does not parse. -/
def exSampledBad : Response :=
  ⟨[⟨⟨[], [("m")]⟩, ⟨[⟨[], [some [("N/A")]]⟩], some 1, [1], []⟩, none⟩]⟩

/-- A sampled but otherwise well-formed first page. -/
def exSampledOk : Response :=
  ⟨[⟨⟨[], [("m")]⟩, ⟨[⟨[], [some [("7")]]⟩], some 1, [5], []⟩, none⟩]⟩

/-- A 5-row single-page response without a continuation token. -/
def exSmall : Response :=
  ⟨[⟨⟨[], [("m")]⟩, ⟨[⟨[], [some [("1")]]⟩], some 5, [], []⟩, none⟩]⟩

/-- A response whose metric value `"1,5"` contains a comma but is not a valid
float literal. -/
def exComma : Response :=
  ⟨[⟨⟨[], [("m")]⟩, ⟨[⟨[], [some [("1,5")]]⟩], some 1, [], []⟩, none⟩]⟩

/-- A response whose metric value is the empty string. -/
def exEmptyVal : Response :=
  ⟨[⟨⟨[], [("m")]⟩, ⟨[⟨[], [some [("")]]⟩], some 1, [], []⟩, none⟩]⟩

/-- A response whose metric value `"N/A"` is neither a float nor an int
literal. -/
def exNA : Response :=
  ⟨[⟨⟨[], [("m")]⟩, ⟨[⟨[], [some [("N/A")]]⟩], some 1, [], []⟩, none⟩]⟩

/-- A well-formed response on which extraction succeeds. -/
def exGood : Response :=
  ⟨[⟨⟨[("ga:d")], [("ga:m")]⟩, ⟨[⟨[("x")], [some [("7")]]⟩], some 1, [], []⟩, none⟩]⟩

/-- Decidable equality of modelled results, to evaluate the model on
concrete inputs. -/
instance {e a : Type} [DecidableEq e] [DecidableEq a] : DecidableEq (Except e a) := fun x y =>
  match x, y with
  | .error e1, .error e2 =>
    if h : e1 = e2 then isTrue (by rw [h]) else
      isFalse (fun hh => h (Except.error.inj hh))
  | .ok a1, .ok a2 =>
    if h : a1 = a2 then isTrue (by rw [h]) else
      isFalse (fun hh => h (Except.ok.inj hh))
  | .error _, .ok _ => isFalse (fun hh => Except.noConfusion hh)
  | .ok _, .error _ => isFalse (fun hh => Except.noConfusion hh)

/-- Reading a key after an assignment: the assigned value at that key,
otherwise the previous value. -/
theorem dictGet_dictSet (d : Dict) (k k' : String) (v : GAValue) :
    dictGet (dictSet d k v) k' = if k' = k then some v else dictGet d k' := by
  induction d with
  | nil =>
    by_cases h : k' = k <;> simp [dictSet, dictGet, h, Ne.symm]
  | cons p rest ih =>
    by_cases hp : p.1 = k
    · by_cases h : k' = k <;> simp [dictSet, dictGet, hp, h, Ne.symm]
    · by_cases h : k' = k
      · subst h
        simp [dictSet, dictGet, hp, ih]
      · by_cases hq : p.1 = k' <;> simp [dictSet, dictGet, hp, hq, h, ih]

theorem applyAssigns_nil (d : Dict) : applyAssigns d [] = d := rfl

theorem applyAssigns_cons (d : Dict) (a : String × GAValue) (al : List (String × GAValue)) :
    applyAssigns d (a :: al) = applyAssigns (dictSet d a.1 a.2) al := rfl

theorem applyAssigns_append (d : Dict) (al bl : List (String × GAValue)) :
    applyAssigns d (al ++ bl) = applyAssigns (applyAssigns d al) bl := by
  simp [applyAssigns, List.foldl_append]

/-- Reading a key after a sequence of assignments: the last assignment to that
key wins; a key never assigned keeps its previous value. -/
theorem dictGet_applyAssigns (al : List (String × GAValue)) (d : Dict) (k : String) :
    dictGet (applyAssigns d al) k =
      match lastAssign al k with
      | some v => some v
      | none => dictGet d k := by
  induction al generalizing d with
  | nil => rfl
  | cons a al ih =>
    rw [applyAssigns_cons, ih]
    cases h : lastAssign al k with
    | some v => simp [lastAssign, h]
    | none =>
      by_cases ha : a.1 = k <;> simp [lastAssign, h, dictGet_dictSet, ha, Ne.symm]

theorem lastAssign_append (al bl : List (String × GAValue)) (k : String) :
    lastAssign (al ++ bl) k =
      match lastAssign bl k with
      | some v => some v
      | none => lastAssign al k := by
  induction al with
  | nil => cases h : lastAssign bl k <;> simp [lastAssign, h]
  | cons a al ih =>
    rw [List.cons_append, lastAssign, ih]
    cases h : lastAssign bl k <;> cases h2 : lastAssign al k <;> simp [lastAssign, h, h2]

/-- A key assigned by no element of the sequence is not assigned. -/
theorem lastAssign_eq_none (al : List (String × GAValue)) (k : String)
    (h : ∀ a ∈ al, a.1 ≠ k) : lastAssign al k = none := by
  induction al with
  | nil => rfl
  | cons a al ih =>
    have ha := h a (by simp)
    simp only [lastAssign, ih (fun b hb => h b (by simp [hb]))]
    simp [ha]

/-- Definitional reduction: mapping over a success. -/
theorem exceptMap_ok {α β : Type} (f : α → β) (a : α) :
    (Except.ok a : Except PyErr α).map f = Except.ok (f a) := rfl

/-- Definitional reduction: mapping over an error. -/
theorem exceptMap_err {α β : Type} (f : α → β) (e : PyErr) :
    (Except.error e : Except PyErr α).map f = Except.error e := rfl

/-- Definitional reduction: binding a success. -/
theorem exceptBind_ok {α β : Type} (a : α) (f : α → Except PyErr β) :
    (Except.ok a : Except PyErr α) >>= f = f a := rfl

/-- Definitional reduction: binding an error. -/
theorem exceptBind_err {α β : Type} (e : PyErr) (f : α → Except PyErr β) :
    (Except.error e : Except PyErr α) >>= f = Except.error e := rfl

/-- Definitional reduction: pure is ok. -/
theorem exceptPure {α : Type} (a : α) : (pure a : Except PyErr α) = Except.ok a := rfl

/-- The inner metric loop is the converted assignment list applied in order. -/
theorem foldConv_eq (ps : List (String × String)) (d : Dict) :
    ps.foldlM (fun d hv => (convertMetric hv.2).map (fun x => dictSet d hv.1 x)) d
      = (ps.mapM convEntry).map
          (fun ms => applyAssigns d (ms.map (fun a => (a.1, a.2.2)))) := by
  induction ps generalizing d with
  | nil => rfl
  | cons p ps ih =>
    rw [List.foldlM_cons, List.mapM_cons]
    cases h : convertMetric p.2 with
    | error e => simp only [convEntry, h]; rfl
    | ok x =>
      simp only [convEntry, h, exceptMap_ok, exceptBind_ok, ih]
      cases h2 : ps.mapM convEntry with
      | error e => rfl
      | ok ms =>
        simp only [exceptMap_ok, exceptBind_ok, exceptPure, List.map_cons,
          applyAssigns_cons]

/-- Unfolding `metricAssigns` one dateRange values object at a time. -/
theorem metricAssigns_cons (mh : List String) (ovs : Option (List String))
    (vss : List (Option (List String))) :
    metricAssigns mh (ovs :: vss) =
      (convSet mh ovs) >>= (fun li => (metricAssigns mh vss).map (fun ms => li ++ ms)) := by
  unfold metricAssigns
  rw [List.mapM_cons]
  cases h : convSet mh ovs with
  | error e => rfl
  | ok li =>
    simp only [exceptBind_ok]
    cases h2 : vss.mapM (convSet mh) with
    | error e => rfl
    | ok lss => simp only [exceptBind_ok, exceptPure, exceptMap_ok, List.flatten_cons]

/-- The dateRange loop is the full metric assignment list applied in order. -/
theorem outerFold_eq (mh : List String) (vss : List (Option (List String))) (d : Dict) :
    vss.foldlM
        (fun d ovalues =>
          match ovalues with
          | none => Except.error PyErr.typeError
          | some values =>
            (mh.zip values).foldlM
              (fun d hv => (convertMetric hv.2).map (fun x => dictSet d hv.1 x)) d)
        d
      = (metricAssigns mh vss).map
          (fun ms => applyAssigns d (ms.map (fun a => (a.1, a.2.2)))) := by
  induction vss generalizing d with
  | nil => rfl
  | cons ovs vss ih =>
    rw [List.foldlM_cons, metricAssigns_cons]
    cases ovs with
    | none => rfl
    | some vs =>
      dsimp only [convSet]
      rw [foldConv_eq]
      cases h : (mh.zip vs).mapM convEntry with
      | error e => rfl
      | ok ms1 =>
        simp only [exceptMap_ok, exceptBind_ok, ih]
        cases h2 : metricAssigns mh vss with
        | error e => rfl
        | ok ms2 =>
          simp only [exceptMap_ok, List.map_append, applyAssigns_append]

/-- `processRow` performs the dimension assignments and then the metric
assignment sequence, in order, on an initially empty dict. -/
theorem processRow_eq (dh mh : List String) (row : GARow) :
    processRow dh mh row
      = (metricAssigns mh row.metrics).map
          (fun ms => applyAssigns (applyAssigns [] (dimAssigns dh row.dimensions))
            (ms.map (fun a => (a.1, a.2.2)))) := by
  unfold processRow
  rw [← outerFold_eq]
  simp [applyAssigns, dimAssigns, List.foldl_map]

/-- A key is unassigned exactly when no element of the sequence assigns it. -/
theorem lastAssign_none_iff (al : List (String × GAValue)) (k : String) :
    lastAssign al k = none ↔ ∀ a ∈ al, a.1 ≠ k := by
  induction al with
  | nil => simp [lastAssign]
  | cons a al ih =>
    simp only [lastAssign, List.mem_cons]
    cases h : lastAssign al k with
    | some v =>
      constructor
      · intro hh; exact Option.noConfusion hh
      · intro hh
        have h0 : lastAssign al k = none := ih.mpr (fun b hb => hh b (Or.inr hb))
        rw [h] at h0
        exact Option.noConfusion h0
    | none =>
      by_cases ha : a.1 = k
      · constructor
        · intro hh
          rw [if_pos ha] at hh
          exact Option.noConfusion hh
        · intro hh
          exact absurd ha (hh a (Or.inl rfl))
      · constructor
        · intro _ b hb
          rcases hb with rfl | hb
          · exact ha
          · exact (ih.mp h) b hb
        · intro _
          rw [if_neg ha]

/-- A successful mapM evaluates its function successfully on every element. -/
theorem mapM_ok_mem {α β : Type} (f : α → Except PyErr β) :
    ∀ (l : List α) (r : List β), l.mapM f = Except.ok r → ∀ a ∈ l, ∃ b, f a = Except.ok b := by
  intro l
  induction l with
  | nil => intro r _ a ha; cases ha
  | cons x l ih =>
    intro r h a ha
    rw [List.mapM_cons] at h
    cases hx : f x with
    | error e =>
      rw [hx, exceptBind_err] at h
      exact Except.noConfusion h
    | ok b =>
      rw [hx, exceptBind_ok] at h
      cases hl : l.mapM f with
      | error e =>
        rw [hl, exceptBind_err] at h
        exact Except.noConfusion h
      | ok bs =>
        rcases List.mem_cons.mp ha with rfl | hmem
        · exact ⟨b, hx⟩
        · exact ih bs hl a hmem

/-- Every element of a successful mapM's output is the image of an input. -/
theorem mapM_ok_out {α β : Type} (f : α → Except PyErr β) :
    ∀ (l : List α) (r : List β), l.mapM f = Except.ok r →
      ∀ b ∈ r, ∃ a ∈ l, f a = Except.ok b := by
  intro l
  induction l with
  | nil =>
    intro r h b hb
    rw [List.mapM_nil] at h
    rw [exceptPure] at h
    cases Except.ok.inj h
    cases hb
  | cons x l ih =>
    intro r h b hb
    rw [List.mapM_cons] at h
    cases hx : f x with
    | error e =>
      rw [hx, exceptBind_err] at h
      exact Except.noConfusion h
    | ok y =>
      rw [hx, exceptBind_ok] at h
      cases hl : l.mapM f with
      | error e =>
        rw [hl, exceptBind_err] at h
        exact Except.noConfusion h
      | ok bs =>
        rw [hl, exceptBind_ok, exceptPure] at h
        cases Except.ok.inj h
        rcases List.mem_cons.mp hb with rfl | hmem
        · exact ⟨x, by simp, hx⟩
        · obtain ⟨a, hal, hfa⟩ := ih bs hl b hmem
          exact ⟨a, by simp [hal], hfa⟩

/-- Successful conversion of a comma- or dot-bearing string yields a float. -/
theorem convertMetric_float (s : String) (v : GAValue) (h : convertMetric s = Except.ok v)
    (hc : hasCommaOrDot s = true) : ∃ f, v = GAValue.float f := by
  unfold convertMetric at h
  rw [hc] at h
  simp only [if_true] at h
  cases hp : pyFloat s with
  | none => rw [hp] at h; exact Except.noConfusion h
  | some f =>
    rw [hp] at h
    exact ⟨f, (Except.ok.inj h).symm⟩

/-- Successful conversion of a comma- and dot-free string yields an int. -/
theorem convertMetric_int (s : String) (v : GAValue) (h : convertMetric s = Except.ok v)
    (hc : hasCommaOrDot s = false) : ∃ n, v = GAValue.int n := by
  unfold convertMetric at h
  rw [hc] at h
  simp only [Bool.false_eq_true, if_false] at h
  cases hp : pyInt s with
  | none => rw [hp] at h; exact Except.noConfusion h
  | some n =>
    rw [hp] at h
    exact ⟨n, (Except.ok.inj h).symm⟩

/-- Every triple of a successful metric assignment list records a successful
conversion of its source string. -/
theorem metricAssigns_ok_mem (mh : List String) (vss : List (Option (List String)))
    (ms : List (String × String × GAValue)) (h : metricAssigns mh vss = Except.ok ms) :
    ∀ a ∈ ms, convertMetric a.2.1 = Except.ok a.2.2 := by
  unfold metricAssigns at h
  cases hl : vss.mapM (convSet mh) with
  | error e => rw [hl, exceptBind_err] at h; exact Except.noConfusion h
  | ok lss =>
    rw [hl, exceptBind_ok, exceptPure] at h
    cases Except.ok.inj h
    intro a ha
    rw [List.mem_flatten] at ha
    obtain ⟨li, hli, hai⟩ := ha
    obtain ⟨ovs, _, hset⟩ := mapM_ok_out (convSet mh) vss lss hl li hli
    cases ovs with
    | none => exact Except.noConfusion hset
    | some vs =>
      dsimp only [convSet] at hset
      obtain ⟨p, _, hconv⟩ := mapM_ok_out convEntry (mh.zip vs) li hset a hai
      unfold convEntry at hconv
      cases hc : convertMetric p.2 with
      | error e => rw [hc, exceptMap_err] at hconv; exact Except.noConfusion hconv
      | ok x =>
        rw [hc, exceptMap_ok] at hconv
        cases Except.ok.inj hconv
        exact hc

/-- The keys of a successful per-set assignment list are the zipped header
prefix, in order. -/
theorem mapM_convEntry_keys :
    ∀ (ps : List (String × String)) (ms : List (String × String × GAValue)),
      ps.mapM convEntry = Except.ok ms → ms.map (fun a => a.1) = ps.map Prod.fst := by
  intro ps
  induction ps with
  | nil =>
    intro ms h
    rw [List.mapM_nil, exceptPure] at h
    cases Except.ok.inj h
    rfl
  | cons p ps ih =>
    intro ms h
    rw [List.mapM_cons] at h
    cases hc : convertMetric p.2 with
    | error e =>
      rw [show convEntry p = Except.error e by rw [convEntry, hc]; rfl, exceptBind_err] at h
      exact Except.noConfusion h
    | ok x =>
      rw [show convEntry p = Except.ok (p.1, p.2, x) by rw [convEntry, hc]; rfl,
        exceptBind_ok] at h
      cases hl : ps.mapM convEntry with
      | error e =>
        rw [hl, exceptBind_err] at h
        exact Except.noConfusion h
      | ok ms2 =>
        rw [hl, exceptBind_ok, exceptPure] at h
        cases Except.ok.inj h
        simp [ih ms2 hl]

/-- Every dimension assignment pairs a header with its raw string value. -/
theorem dimAssigns_mem (dh dv : List String) (a : String × GAValue)
    (ha : a ∈ dimAssigns dh dv) : ∃ s, a.2 = GAValue.str s ∧ (a.1, s) ∈ dh.zip dv := by
  unfold dimAssigns at ha
  rw [List.mem_map] at ha
  obtain ⟨p, hp, rfl⟩ := ha
  exact ⟨p.2, rfl, hp⟩

/-- A successful `get_ga_data` extracts every report's rows successfully. -/
theorem get_ga_data_ok_rows (resp : Response) (l : List Dict)
    (h : get_ga_data resp = Except.ok l) :
    ∀ rep ∈ resp.reports, ∃ rl,
      rep.data.rows.mapM
        (processRow rep.columnHeader.dimensions rep.columnHeader.metricHeaderEntries)
        = Except.ok rl := by
  unfold get_ga_data at h
  cases hm : resp.reports.mapM (fun report =>
      report.data.rows.mapM
        (processRow report.columnHeader.dimensions report.columnHeader.metricHeaderEntries)) with
  | error e => rw [hm, exceptBind_err] at h; exact Except.noConfusion h
  | ok rls => exact mapM_ok_mem _ resp.reports rls hm

/-- A successful page loop fetches exactly the requested tokens, in order, and
returns the concatenation of the extracted pages. -/
theorem fetchPages_ok (fetch : String → Response) :
    ∀ (ts tr : List String) (rows : List Dict),
      fetchPages fetch ts = (tr, Except.ok rows) →
      tr = ts ∧ ∃ pages : List (List Dict),
        ts.mapM (fun t => get_ga_data (fetch t)) = Except.ok pages ∧ rows = pages.flatten := by
  intro ts
  induction ts with
  | nil =>
    intro tr rows h
    rw [show fetchPages fetch [] = ([], Except.ok []) from rfl] at h
    injection h with h1 h2
    injection h2 with h3
    subst h1
    subst h3
    exact ⟨rfl, [], rfl, rfl⟩
  | cons t ts ih =>
    intro tr rows h
    simp only [fetchPages] at h
    cases hg : get_ga_data (fetch t) with
    | error e =>
      rw [hg] at h
      injection h with h1 h2
      exact Except.noConfusion h2
    | ok prows =>
      rw [hg] at h
      rcases hr : fetchPages fetch ts with ⟨tr2, res2⟩
      rw [hr] at h
      cases res2 with
      | error e =>
        dsimp only at h
        injection h with h1 h2
        exact Except.noConfusion h2
      | ok rest =>
        dsimp only at h
        injection h with h1 h2
        injection h2 with h3
        obtain ⟨htr, pages, hmap, hrows⟩ := ih tr2 rest hr
        subst htr
        refine ⟨h1.symm, prows :: pages, ?_, ?_⟩
        · rw [List.mapM_cons, hg, exceptBind_ok, hmap, exceptBind_ok, exceptPure]
        · rw [← h3, hrows, List.flatten_cons]

/-- Decomposition of a successful `get_response`: the first page has a row
count and no sampling indicator, first-page extraction succeeded, the page
loop ran on the computed token list and produced the table rows, and the
columns are the stripped inferred labels. -/
theorem get_response_ok (fetch : String → Response) (resp : Response) (tr : List String)
    (df : DataFrame) (h : get_response fetch resp = (tr, Except.ok df)) :
    ∃ report0 rc, resp.reports.head? = some report0 ∧ report0.data.rowCount = some rc ∧
      report0.data.samplesReadCounts = [] ∧ report0.data.samplingSpaceSizes = [] ∧
      (∃ l, get_ga_data resp = Except.ok l) ∧
      fetchPages fetch
        ((if 100000 < rc ∧ report0.nextPageToken.isSome = true then
            offsetsFrom (pyCeilDiv rc 100000).toNat 0
          else [0]).map (fun o => toString o))
        = (tr, Except.ok df.rows) ∧
      df.columns = (dfColumns df.rows).map stripGA := by
  unfold get_response at h
  cases h0 : resp.reports.head? with
  | none =>
    rw [h0] at h
    injection h with h1 h2
    exact Except.noConfusion h2
  | some report0 =>
    rw [h0] at h
    dsimp only at h
    cases hg : get_ga_data resp with
    | error e =>
      rw [hg] at h
      injection h with h1 h2
      exact Except.noConfusion h2
    | ok l =>
      rw [hg] at h
      dsimp only at h
      cases hrc : report0.data.rowCount with
      | none =>
        rw [hrc] at h
        injection h with h1 h2
        exact Except.noConfusion h2
      | some rc =>
        rw [hrc] at h
        dsimp only at h
        by_cases hs : report0.data.samplesReadCounts ≠ [] ∨ report0.data.samplingSpaceSizes ≠ []
        · rw [if_pos hs] at h
          injection h with h1 h2
          exact Except.noConfusion h2
        · rw [if_neg hs] at h
          push_neg at hs
          rcases hfp : fetchPages fetch
              ((if 100000 < rc ∧ report0.nextPageToken.isSome = true then
                  offsetsFrom (pyCeilDiv rc 100000).toNat 0
                else [0]).map (fun o => toString o)) with ⟨tr2, res2⟩
          rw [hfp] at h
          cases res2 with
          | error e =>
            dsimp only at h
            injection h with h1 h2
            exact Except.noConfusion h2
          | ok cd =>
            dsimp only at h
            injection h with h1 h2
            injection h2 with h3
            refine ⟨report0, rc, rfl, hrc, hs.1, hs.2, ⟨l, rfl⟩, ?_, ?_⟩
            · rw [hfp, h1, ← h3]
            · rw [← h3]

/-- A sampled first page makes `get_response` raise before fetching anything:
the fetch trace is empty and the result is an error. -/
theorem get_response_sampled_err (fetch : String → Response) (resp : Response)
    (report0 : Report) (h0 : resp.reports.head? = some report0)
    (hs : report0.data.samplesReadCounts ≠ [] ∨ report0.data.samplingSpaceSizes ≠ []) :
    ∃ e, get_response fetch resp = ([], Except.error e) := by
  unfold get_response
  rw [h0]
  dsimp only
  cases hg : get_ga_data resp with
  | error e => exact ⟨e, rfl⟩
  | ok l =>
    dsimp only
    cases hrc : report0.data.rowCount with
    | none => exact ⟨.typeError, rfl⟩
    | some rc =>
      dsimp only
      rw [if_pos hs]
      exact ⟨.sampledDataError, rfl⟩

/-- A sampled first page whose row count is present and whose first-page
extraction succeeds makes `get_response` raise `SampledDataError` exactly. -/
theorem get_response_sampled_exact (fetch : String → Response) (resp : Response)
    (report0 : Report) (rc : Int) (l : List Dict)
    (h0 : resp.reports.head? = some report0)
    (hs : report0.data.samplesReadCounts ≠ [] ∨ report0.data.samplingSpaceSizes ≠ [])
    (hrc : report0.data.rowCount = some rc)
    (hg : get_ga_data resp = Except.ok l) :
    get_response fetch resp = ([], Except.error PyErr.sampledDataError) := by
  unfold get_response
  rw [h0]
  dsimp only
  rw [hg, hrc]
  dsimp only
  rw [if_pos hs]

/-- The offset loop from `off` lists `off + i * 100000` for `i < k`. -/
theorem offsetsFrom_eq (k : Nat) : ∀ (off : Int),
    offsetsFrom k off = (List.range k).map (fun (i : Nat) => off + (i : Int) * 100000) := by
  induction k with
  | zero => intro off; rfl
  | succ k ih =>
    intro off
    rw [show offsetsFrom (k + 1) off = off :: offsetsFrom k (off + 100000) from rfl, ih,
      List.range_succ_eq_map, List.map_cons, List.map_map]
    refine congrArg₂ _ (by push_cast; ring) ?_
    refine List.map_congr_left (fun i _ => ?_)
    simp only [Function.comp_apply]
    push_cast
    ring

/-- The offset loop from 0 lists the multiples of the page size. -/
theorem offsetsFrom_zero (k : Nat) :
    offsetsFrom k 0 = (List.range k).map (fun (i : Nat) => (i : Int) * 100000) := by
  rw [offsetsFrom_eq]
  exact List.map_congr_left (fun i _ => by ring)

/-- The offset sequence is strictly increasing. -/
theorem offsets_pairwise (k : Nat) :
    ((List.range k).map (fun (i : Nat) => (i : Int) * 100000)).Pairwise (· < ·) := by
  refine List.Pairwise.map _ ?_ (List.pairwise_lt_range k)
  intro a b hab
  have hi : (a : Int) < (b : Int) := by exact_mod_cast hab
  have := mul_lt_mul_of_pos_right hi (show (0 : Int) < 100000 by norm_num)
  simpa using this

/-- The retry loop never makes more attempts than it has fuel. -/
theorem retryAux_le (a : Nat → AttemptOutcome) (j : Nat → ℚ) :
    ∀ (fuel n : Nat), (retryAux a j n fuel).2.2 ≤ fuel := by
  intro fuel
  induction fuel with
  | zero => intro n; exact le_refl 0
  | succ fuel ih =>
    intro n
    simp only [retryAux]
    cases a n with
    | ok df => simp
    | exn e => simp
    | httpErr r =>
      dsimp only
      by_cases hr : RETRYABLE.contains r
      · rw [if_pos hr]
        dsimp only
        have := ih (n + 1)
        omega
      · rw [if_neg hr]
        simp

/-- If every attempt in the window fails retryably, the loop ends with no
result. -/
theorem retryAux_allFail (a : Nat → AttemptOutcome) (j : Nat → ℚ) :
    ∀ (fuel n : Nat),
      (∀ i, n ≤ i → i < n + fuel → ∃ r, a i = .httpErr r ∧ RETRYABLE.contains r = true) →
      (retryAux a j n fuel).1 = RetryResult.noResult := by
  intro fuel
  induction fuel with
  | zero => intro n _; rfl
  | succ fuel ih =>
    intro n hfail
    obtain ⟨r, har, hr⟩ := hfail n (le_refl n) (by omega)
    simp only [retryAux, har, hr, if_true]
    exact ih (n + 1) (fun i h1 h2 => hfail i (by omega) (by omega))

/-- Stripping is a no-op on a character list with no `"ga:"` occurrence. -/
theorem stripGAList_noop (cs : List Char) (h : containsGA cs = false) :
    stripGAList cs = cs := by
  induction cs using stripGAList.induct with
  | case1 rest ih => simp [containsGA] at h
  | case2 c rest hne ih =>
    have h2 : containsGA (c :: rest) = containsGA rest := by
      rw [containsGA]
      exact hne
    rw [h2] at h
    have h3 : stripGAList (c :: rest) = c :: stripGAList rest := by
      rw [stripGAList]
      exact hne
    rw [h3, ih h]
  | case3 => rfl

/-- C1: for every query whose first-page response reports rowCount > 100000
and carries a continuation token, a successful assembly loop in get_response
issues exactly ceil(rowCount / 100000) page fetches, whose page tokens are the
string forms of the strictly increasing offsets 0, 100000, ...,
(ceil(rowCount/100000) - 1) * 100000, and the returned table is the
concatenation of the extracted rows of those pages in fetch order. -/
theorem claim_C1_pagination (fetch : String → Response) (resp : Response)
    (report0 : Report) (rc : Int) (tok : String) (tr : List String) (df : DataFrame)
    (h0 : resp.reports.head? = some report0)
    (hrc : report0.data.rowCount = some rc)
    (hgt : 100000 < rc)
    (htok : report0.nextPageToken = some tok)
    (hok : get_response fetch resp = (tr, Except.ok df)) :
    tr = ((List.range (pyCeilDiv rc 100000).toNat).map
        (fun (i : Nat) => (i : Int) * 100000)).map (fun o => toString o)
    ∧ tr.length = (pyCeilDiv rc 100000).toNat
    ∧ ((List.range (pyCeilDiv rc 100000).toNat).map
        (fun (i : Nat) => (i : Int) * 100000)).Pairwise (· < ·)
    ∧ ∃ pages : List (List Dict),
        tr.mapM (fun t => get_ga_data (fetch t)) = Except.ok pages
        ∧ df.rows = pages.flatten := by
  obtain ⟨r0, rc0, h0', hrc', _, _, _, hfp, _⟩ := get_response_ok fetch resp tr df hok
  rw [h0] at h0'
  cases Option.some.inj h0'
  rw [hrc] at hrc'
  cases Option.some.inj hrc'
  rw [if_pos ⟨hgt, by rw [htok]; rfl⟩, offsetsFrom_zero] at hfp
  obtain ⟨htr, pages, hmap, hrows⟩ := fetchPages_ok fetch _ tr df.rows hfp
  refine ⟨htr, ?_, offsets_pairwise _, pages, ?_, hrows⟩
  · rw [htr]
    simp
  · rw [htr]
    exact hmap

/-- C1 witness: a concrete 250000-row query paginates into three fetches at
tokens "0", "100000", "200000" and concatenates the three pages. -/
theorem claim_C1_pagination_witness :
    (get_response exFetch1 (exFetch1 ("0"))).1 = ["0", "100000", "200000"]
    ∧ (["0", "100000", "200000"] : List String).length
        = (pyCeilDiv 250000 100000).toNat := by
  have h := claim_C1_pagination exFetch1 (exFetch1 ("0"))
      ⟨⟨[("ga:d")], [("ga:m")]⟩, ⟨[⟨[("a")], [some [("1")]]⟩], some 250000, [], []⟩,
        some ("tok")⟩
      250000 ("tok") (["0", "100000", "200000"])
      ⟨[[(("ga:d"), GAValue.str ("a")), (("ga:m"), GAValue.int 1)],
        [(("ga:d"), GAValue.str ("b")), (("ga:m"), GAValue.int 2)],
        [(("ga:d"), GAValue.str ("c")), (("ga:m"), GAValue.int 3)]], [("d"), ("m")]⟩
      rfl rfl (by norm_num) rfl rfl
  exact ⟨by rfl, h.2.1⟩

/-- C2 counterexample: a first page with a non-empty samplesReadCounts whose
metric value "N/A" does not parse makes get_response raise ValueError (from
the first-page extraction performed before the sampling check), not
SampledDataError. -/
theorem claim_C2_counterexample :
    (exSampledBad.reports.head?.map (fun r => r.data.samplesReadCounts)) = some [1]
    ∧ get_response (fun _ => exSampledBad) exSampledBad
        = ([], Except.error PyErr.valueError)
    ∧ PyErr.valueError ≠ PyErr.sampledDataError := by
  exact ⟨rfl, rfl, fun hh => PyErr.noConfusion hh⟩

/-- C2 (amended): for a first page carrying a sampling indicator, get_response
raises SampledDataError provided the row count is present and first-page
extraction succeeds; in every case it fetches no subsequent page and never
returns a table. -/
theorem claim_C2_sampling_abort (fetch : String → Response) (resp : Response)
    (report0 : Report)
    (h0 : resp.reports.head? = some report0)
    (hs : report0.data.samplesReadCounts ≠ [] ∨ report0.data.samplingSpaceSizes ≠ []) :
    (∀ rc l, report0.data.rowCount = some rc → get_ga_data resp = Except.ok l →
        get_response fetch resp = ([], Except.error PyErr.sampledDataError))
    ∧ (get_response fetch resp).1 = []
    ∧ ∀ tr df, get_response fetch resp ≠ (tr, Except.ok df) := by
  obtain ⟨e, he⟩ := get_response_sampled_err fetch resp report0 h0 hs
  refine ⟨fun rc l hrc hg =>
      get_response_sampled_exact fetch resp report0 rc l h0 hs hrc hg,
    by rw [he], ?_⟩
  intro tr df hcontra
  rw [he] at hcontra
  injection hcontra with h1 h2
  exact Except.noConfusion h2

/-- C2 witness: a concrete well-formed sampled response aborts with
SampledDataError and an empty fetch trace. -/
theorem claim_C2_sampling_abort_witness :
    get_response (fun _ => exSampledOk) exSampledOk
      = ([], Except.error PyErr.sampledDataError)
    ∧ (get_response (fun _ => exSampledOk) exSampledOk).1 = [] := by
  have h := claim_C2_sampling_abort (fun _ => exSampledOk) exSampledOk
      ⟨⟨[], [("m")]⟩, ⟨[⟨[], [some [("7")]]⟩], some 1, [5], []⟩, none⟩ rfl
      (Or.inl (by simp))
  exact ⟨h.1 1 [[(("m"), GAValue.int 7)]] rfl rfl, h.2.1⟩

/-- C3 counterexample: a single-page query (rowCount 5, no continuation token)
performs two page fetches in total, not one — the initial request in
get_dataframes and the assembly loop's re-fetch of offset 0. -/
theorem claim_C3_counterexample :
    (exSmall.reports.head?.map (fun r => r.data.rowCount)) = some (some 5)
    ∧ run_query (fun _ => exSmall)
        = (["0", "0"], Except.ok ⟨[[(("m"), GAValue.int 1)]], [("m")]⟩)
    ∧ (["0", "0"] : List String).length ≠ 1 := by
  exact ⟨rfl, rfl, by decide⟩

/-- C3 (amended): for rowCount ≤ 100000 or a first page without a
continuation token, a successful assembly loop fetches exactly once with
offset sequence [0]; together with the initial first-page request the query
performs two fetches in total, both with token "0". -/
theorem claim_C3_single_segment (fetch : String → Response) (report0 : Report) (rc : Int)
    (tr : List String) (df : DataFrame)
    (h0 : (fetch ("0")).reports.head? = some report0)
    (hrc : report0.data.rowCount = some rc)
    (hcond : rc ≤ 100000 ∨ report0.nextPageToken = none)
    (hok : run_query fetch = (tr, Except.ok df)) :
    tr = ["0", "0"] ∧ tr.length = 2
    ∧ (get_response fetch (fetch ("0"))).1 = ["0"] := by
  unfold run_query at hok
  dsimp only at hok
  rcases hgr : get_response fetch (fetch ("0")) with ⟨tr2, res2⟩
  rw [hgr] at hok
  dsimp only at hok
  injection hok with h1 h2
  subst h2
  obtain ⟨r0, rc0, h0', hrc', _, _, _, hfp, _⟩ :=
    get_response_ok fetch (fetch ("0")) tr2 df hgr
  rw [h0] at h0'
  cases Option.some.inj h0'
  rw [hrc] at hrc'
  cases Option.some.inj hrc'
  have hcnot : ¬(100000 < rc ∧ report0.nextPageToken.isSome = true) := by
    rcases hcond with hle | hnone
    · intro hh
      omega
    · intro hh
      rw [hnone] at hh
      exact Bool.noConfusion hh.2
  rw [if_neg hcnot] at hfp
  have htok0 : ([(0 : Int)]).map (fun o => toString o) = ["0"] := rfl
  rw [htok0] at hfp
  obtain ⟨htr2, _, _, _⟩ := fetchPages_ok fetch _ tr2 df.rows hfp
  exact ⟨by rw [← h1, htr2], by rw [← h1, htr2]; rfl, htr2⟩

/-- C3 witness: the concrete single-page query fetches token "0" twice in
total and once in the assembly loop. -/
theorem claim_C3_single_segment_witness :
    (["0", "0"] : List String) = ["0", "0"]
    ∧ (["0", "0"] : List String).length = 2
    ∧ (get_response (fun _ => exSmall) ((fun _ => exSmall) ("0"))).1 = ["0"] := by
  exact claim_C3_single_segment (fun _ => exSmall)
    ⟨⟨[], [("m")]⟩, ⟨[⟨[], [some [("1")]]⟩], some 5, [], []⟩, none⟩ 5 (["0", "0"])
    ⟨[[(("m"), GAValue.int 1)]], [("m")]⟩ rfl rfl (Or.inl (by norm_num)) rfl

/-- Zipping truncates both lists to the shorter length. -/
theorem zip_take_min {α β : Type} : ∀ (l1 : List α) (l2 : List β),
    l1.zip l2 = (l1.take (min l1.length l2.length)).zip (l2.take (min l1.length l2.length)) := by
  intro l1
  induction l1 with
  | nil => intro l2; simp
  | cons x l1 ih =>
    intro l2
    cases l2 with
    | nil => rfl
    | cons y l2 =>
      simp only [List.zip_cons_cons, List.length_cons]
      rw [show min (l1.length + 1) (l2.length + 1) = min l1.length l2.length + 1 by omega]
      simp only [List.take_succ_cons, List.zip_cons_cons]
      rw [← ih l2]

/-- A per-set assignment list succeeds when every paired value converts. -/
theorem mapM_convEntry_ok (ps : List (String × String))
    (h : ∀ p ∈ ps, ∃ x, convertMetric p.2 = Except.ok x) :
    ∃ li, ps.mapM convEntry = Except.ok li := by
  induction ps with
  | nil => exact ⟨[], rfl⟩
  | cons p ps ih =>
    obtain ⟨x, hx⟩ := h p (by simp)
    obtain ⟨li, hli⟩ := ih (fun q hq => h q (by simp [hq]))
    refine ⟨(p.1, p.2, x) :: li, ?_⟩
    rw [List.mapM_cons,
      show convEntry p = Except.ok (p.1, p.2, x) by rw [convEntry, hx]; rfl,
      exceptBind_ok, hli, exceptBind_ok, exceptPure]

/-- The metric assignment list succeeds when every set is present and every
paired value converts. -/
theorem metricAssigns_ok_of (mh : List String) :
    ∀ (vss : List (Option (List String))),
    (∀ ovs ∈ vss, ∃ vs, ovs = some vs ∧
        ∀ p ∈ mh.zip vs, ∃ x, convertMetric p.2 = Except.ok x) →
    ∃ ms, metricAssigns mh vss = Except.ok ms := by
  intro vss
  induction vss with
  | nil => exact fun _ => ⟨[], rfl⟩
  | cons ovs vss ih =>
    intro h
    obtain ⟨vs, rfl, hconv⟩ := h ovs (by simp)
    obtain ⟨li, hli⟩ := mapM_convEntry_ok _ hconv
    obtain ⟨ms, hms⟩ := ih (fun o ho => h o (by simp [ho]))
    refine ⟨li ++ ms, ?_⟩
    rw [metricAssigns_cons,
      show convSet mh (some vs) = (mh.zip vs).mapM convEntry from rfl,
      hli, exceptBind_ok, hms, exceptMap_ok]

/-- Metric assignment lists concatenate over concatenated value-set lists. -/
theorem metricAssigns_append (mh : List String) :
    ∀ (xs ys : List (Option (List String))),
    metricAssigns mh (xs ++ ys)
      = (metricAssigns mh xs) >>= (fun m1 => (metricAssigns mh ys).map (fun m2 => m1 ++ m2)) := by
  intro xs ys
  induction xs with
  | nil =>
    show metricAssigns mh ys = _
    rw [show metricAssigns mh [] = Except.ok [] from rfl, exceptBind_ok]
    cases h : metricAssigns mh ys with
    | error e => rfl
    | ok m => rw [exceptMap_ok, List.nil_append]
  | cons x xs ih =>
    rw [List.cons_append, metricAssigns_cons, metricAssigns_cons]
    cases hx : convSet mh x with
    | error e => rfl
    | ok li =>
      rw [exceptBind_ok, exceptBind_ok, ih]
      cases h1 : metricAssigns mh xs with
      | error e => rfl
      | ok m1 =>
        rw [exceptBind_ok, exceptMap_ok]
        cases h2 : metricAssigns mh ys with
        | error e => rfl
        | ok m2 => simp only [exceptBind_ok, exceptMap_ok, List.append_assoc]

/-- Every key assigned by the metric assignment list is a metric header. -/
theorem metricAssigns_keys_mem (mh : List String) (vss : List (Option (List String)))
    (ms : List (String × String × GAValue)) (h : metricAssigns mh vss = Except.ok ms) :
    ∀ a ∈ ms, a.1 ∈ mh := by
  unfold metricAssigns at h
  cases hl : vss.mapM (convSet mh) with
  | error e => rw [hl, exceptBind_err] at h; exact Except.noConfusion h
  | ok lss =>
    rw [hl, exceptBind_ok, exceptPure] at h
    cases Except.ok.inj h
    intro a ha
    rw [List.mem_flatten] at ha
    obtain ⟨li, hli, hai⟩ := ha
    obtain ⟨ovs, _, hset⟩ := mapM_ok_out (convSet mh) vss lss hl li hli
    cases ovs with
    | none => exact Except.noConfusion hset
    | some vs =>
      dsimp only [convSet] at hset
      obtain ⟨p, hpz, hconv⟩ := mapM_ok_out convEntry (mh.zip vs) li hset a hai
      unfold convEntry at hconv
      cases hc : convertMetric p.2 with
      | error e => rw [hc, exceptMap_err] at hconv; exact Except.noConfusion hconv
      | ok x =>
        rw [hc, exceptMap_ok] at hconv
        cases Except.ok.inj hconv
        exact (List.of_mem_zip hpz).1

/-- C4: every extracted row dict is built by first storing each paired
dimension header with its raw string value unchanged, then storing each
converted metric value under its header name, set by set; every stored metric
value is a float exactly when its source string contains ',' or '.', and an
int otherwise. -/
theorem claim_C4_value_typing :
    (∀ (dh mh : List String) (row : GARow),
      processRow dh mh row
        = (metricAssigns mh row.metrics).map
            (fun ms => applyAssigns (applyAssigns [] (dimAssigns dh row.dimensions))
              (ms.map (fun a => (a.1, a.2.2)))))
    ∧ (∀ (dh dv : List String), ∀ a ∈ dimAssigns dh dv,
        ∃ s, a.2 = GAValue.str s ∧ (a.1, s) ∈ dh.zip dv)
    ∧ (∀ (mh : List String) (vss : List (Option (List String)))
        (ms : List (String × String × GAValue)),
        metricAssigns mh vss = Except.ok ms →
        ∀ a ∈ ms, convertMetric a.2.1 = Except.ok a.2.2
          ∧ (hasCommaOrDot a.2.1 = true → ∃ f, a.2.2 = GAValue.float f)
          ∧ (hasCommaOrDot a.2.1 = false → ∃ n, a.2.2 = GAValue.int n)) := by
  refine ⟨processRow_eq, fun dh dv a ha => dimAssigns_mem dh dv a ha, ?_⟩
  intro mh vss ms h a ha
  have hc := metricAssigns_ok_mem mh vss ms h a ha
  exact ⟨hc, fun hcd => convertMetric_float _ _ hc hcd,
    fun hcd => convertMetric_int _ _ hc hcd⟩

/-- C4 witness: a concrete row stores the dimension "x" unchanged as a string
and the comma- and dot-free metric "7" as the integer 7. -/
theorem claim_C4_value_typing_witness :
    (processRow [("d")] [("m")] ⟨[("x")], [some [("7")]]⟩
        = (metricAssigns [("m")] [some [("7")]]).map
            (fun ms => applyAssigns (applyAssigns [] (dimAssigns [("d")] [("x")]))
              (ms.map (fun a => (a.1, a.2.2)))))
    ∧ (∃ s, GAValue.str ("x") = GAValue.str s ∧ ((("d") : String), s) ∈ [("d")].zip [("x")])
    ∧ (∃ n, GAValue.int 7 = GAValue.int n) := by
  have h := claim_C4_value_typing
  refine ⟨h.1 [("d")] [("m")] ⟨[("x")], [some [("7")]]⟩, ?_, ?_⟩
  · exact h.2.1 [("d")] [("x")] ((("d") : String), GAValue.str ("x")) (by simp [dimAssigns])
  · have h3 := h.2.2 [("m")] [some [("7")]]
      [((("m") : String), ("7"), GAValue.int 7)] rfl
      ((("m") : String), ("7"), GAValue.int 7) (by simp)
    exact h3.2.2 rfl

/-- C7 counterexample: stripping can create a new "ga:" occurrence, so the
normalization is not idempotent: "gaga::" strips to "ga:", which strips to
the empty string. -/
theorem claim_C7_counterexample :
    stripGA ("gaga::") = ("ga:") ∧ stripGA (stripGA ("gaga::")) = ("")
    ∧ (("") : String) ≠ ("ga:") := by
  exact ⟨rfl, rfl, by decide⟩

/-- C7 (amended): stripping is a no-op on a name containing no "ga:"
occurrence, so re-stripping a stripped name is a no-op whenever the first
strip left no "ga:" occurrence; stripping is not idempotent in general. -/
theorem claim_C7_strip_conditional_idempotent (s : String)
    (h : containsGA (stripGA s).data = false) :
    stripGA (stripGA s) = stripGA s := by
  show (⟨stripGAList (stripGA s).data⟩ : String) = stripGA s
  rw [stripGAList_noop _ h]

/-- C7 witness: re-stripping the stripped form of "ga:sessions" is a no-op. -/
theorem claim_C7_strip_conditional_idempotent_witness :
    stripGA (stripGA ("ga:sessions")) = stripGA ("ga:sessions") :=
  claim_C7_strip_conditional_idempotent ("ga:sessions") (by decide)

/-- C8: header/value count mismatches are truncated silently to the shorter
length on both the dimension side and the metric side, and the mismatch alone
raises nothing: extraction succeeds whenever every paired metric value
converts. -/
theorem claim_C8_silent_truncation :
    (∀ (dh dv mh : List String) (vss : List (Option (List String))),
      processRow dh mh ⟨dv, vss⟩
        = processRow (dh.take (min dh.length dv.length)) mh
            ⟨dv.take (min dh.length dv.length), vss⟩)
    ∧ (∀ (dh dv mh vs : List String),
      processRow dh mh ⟨dv, [some vs]⟩
        = processRow dh (mh.take (min mh.length vs.length))
            ⟨dv, [some (vs.take (min mh.length vs.length))]⟩)
    ∧ (∀ (dh dv mh : List String) (vss : List (Option (List String))),
      (∀ ovs ∈ vss, ∃ vs, ovs = some vs ∧
          ∀ p ∈ mh.zip vs, ∃ x, convertMetric p.2 = Except.ok x) →
      ∃ d, processRow dh mh ⟨dv, vss⟩ = Except.ok d) := by
  refine ⟨?_, ?_, ?_⟩
  · intro dh dv mh vss
    unfold processRow
    rw [zip_take_min dh dv]
  · intro dh dv mh vs
    unfold processRow
    dsimp only
    simp only [List.foldlM_cons, List.foldlM_nil]
    rw [zip_take_min mh vs]
  · intro dh dv mh vss hall
    obtain ⟨ms, hms⟩ := metricAssigns_ok_of mh vss hall
    refine ⟨applyAssigns (applyAssigns [] (dimAssigns dh dv))
      (ms.map (fun a => (a.1, a.2.2))), ?_⟩
    rw [processRow_eq]
    dsimp only
    rw [hms, exceptMap_ok]

/-- C8 witness: a surplus dimension header and a surplus metric value are both
discarded and the row still extracts. -/
theorem claim_C8_silent_truncation_witness :
    processRow [("d1"), ("d2")] [("m")] ⟨[("x")], [some [("1"), ("2")]]⟩
        = processRow [("d1")] [("m")] ⟨[("x")], [some [("1"), ("2")]]⟩
    ∧ processRow [("d1")] [("m")] ⟨[("x")], [some [("1"), ("2")]]⟩
        = processRow [("d1")] [("m")] ⟨[("x")], [some [("1")]]⟩
    ∧ ∃ d, processRow [("d1"), ("d2")] [("m")] ⟨[("x")], [some [("1"), ("2")]]⟩
        = Except.ok d := by
  have h := claim_C8_silent_truncation
  refine ⟨h.1 [("d1"), ("d2")] [("x")] [("m")] [some [("1"), ("2")]],
    h.2.1 [("d1")] [("x")] [("m")] [("1"), ("2")],
    h.2.2 [("d1"), ("d2")] [("x")] [("m")] [some [("1"), ("2")]] ?_⟩
  intro ovs hovs
  rw [List.mem_singleton] at hovs
  subst hovs
  refine ⟨[("1"), ("2")], rfl, ?_⟩
  intro p hp
  rw [show ([("m")].zip [("1"), ("2")]) = [((("m") : String), ("1"))] from rfl,
    List.mem_singleton] at hp
  subst hp
  exact ⟨GAValue.int 1, rfl⟩

/-- C9 counterexample: when the last value set is shorter than the metric
header list, a key the last set does not cover keeps an earlier range's
value: with headers m1, m2 and value sets ["1","2"] then ["3"], the returned
row still maps m2 to the first range's 2 — not only the last set's values
survive. -/
theorem claim_C9_counterexample :
    processRow [] [("m1"), ("m2")] ⟨[], [some [("1"), ("2")], some [("3")]]⟩
        = Except.ok [((("m1") : String), GAValue.int 3), ((("m2") : String), GAValue.int 2)]
    ∧ processRow [] [("m1"), ("m2")] ⟨[], [some [("3")]]⟩
        = Except.ok [((("m1") : String), GAValue.int 3)]
    ∧ dictGet [((("m1") : String), GAValue.int 3), ((("m2") : String), GAValue.int 2)] ("m2")
        = some (GAValue.int 2) := ⟨rfl, rfl, rfl⟩

/-- C9 (amended): with several dateRange value sets, each set writes into the
same metric-header keys, so later sets overwrite earlier ones; provided every
set converts and the last set supplies a value for every metric header, every
key of the returned row reads exactly as if only the last set had been
processed — all earlier ranges' values at those keys are overwritten and
lost.  (When the last set is shorter, keys beyond its length keep earlier
values, as the counterexample shows.) -/
theorem claim_C9_last_range_wins (dh mh dv : List String)
    (vss : List (List String)) (vlast : List String)
    (hcover : mh.length ≤ vlast.length)
    (hconv : ∀ vs ∈ vss, ∀ p ∈ mh.zip vs, ∃ x, convertMetric p.2 = Except.ok x)
    (hconvlast : ∀ p ∈ mh.zip vlast, ∃ x, convertMetric p.2 = Except.ok x) :
    ∃ dFull dLast,
      processRow dh mh ⟨dv, vss.map some ++ [some vlast]⟩ = Except.ok dFull
      ∧ processRow dh mh ⟨dv, [some vlast]⟩ = Except.ok dLast
      ∧ ∀ k, dictGet dFull k = dictGet dLast k := by
  have hallF : ∀ ovs ∈ vss.map some ++ [some vlast], ∃ vs, ovs = some vs ∧
      ∀ p ∈ mh.zip vs, ∃ x, convertMetric p.2 = Except.ok x := by
    intro ovs hovs
    rcases List.mem_append.mp hovs with hmem | hmem
    · rw [List.mem_map] at hmem
      obtain ⟨vs, hvs, rfl⟩ := hmem
      exact ⟨vs, rfl, hconv vs hvs⟩
    · rw [List.mem_singleton] at hmem
      subst hmem
      exact ⟨vlast, rfl, hconvlast⟩
  obtain ⟨msF, hmsF⟩ := metricAssigns_ok_of mh _ hallF
  have hallL : ∀ ovs ∈ [some vlast], ∃ vs, ovs = some vs ∧
      ∀ p ∈ mh.zip vs, ∃ x, convertMetric p.2 = Except.ok x := by
    intro ovs hovs
    rw [List.mem_singleton] at hovs
    subst hovs
    exact ⟨vlast, rfl, hconvlast⟩
  obtain ⟨msL, hmsL⟩ := metricAssigns_ok_of mh _ hallL
  have hsplit := metricAssigns_append mh (vss.map some) [some vlast]
  rw [hmsF, hmsL] at hsplit
  cases hE : metricAssigns mh (vss.map some) with
  | error e =>
    rw [hE, exceptBind_err] at hsplit
    exact Except.noConfusion hsplit
  | ok msE =>
    rw [hE, exceptBind_ok, exceptMap_ok] at hsplit
    have hF : msF = msE ++ msL := Except.ok.inj hsplit
    have hkeysL : msL.map (fun a => a.1) = mh := by
      have h1 := metricAssigns_cons mh (some vlast) []
      rw [hmsL] at h1
      cases hli : (mh.zip vlast).mapM convEntry with
      | error e =>
        rw [show convSet mh (some vlast) = (mh.zip vlast).mapM convEntry from rfl, hli,
          exceptBind_err] at h1
        exact Except.noConfusion h1
      | ok li =>
        rw [show convSet mh (some vlast) = (mh.zip vlast).mapM convEntry from rfl, hli,
          exceptBind_ok, show metricAssigns mh [] = Except.ok [] from rfl,
          exceptMap_ok] at h1
        have h2 : msL = li ++ [] := Except.ok.inj h1
        rw [h2, List.append_nil, mapM_convEntry_keys _ li hli, List.map_fst_zip]
        exact hcover
    refine ⟨applyAssigns (applyAssigns [] (dimAssigns dh dv))
        (msF.map (fun a => (a.1, a.2.2))),
      applyAssigns (applyAssigns [] (dimAssigns dh dv))
        (msL.map (fun a => (a.1, a.2.2))), ?_, ?_, ?_⟩
    · rw [processRow_eq]
      dsimp only
      rw [hmsF, exceptMap_ok]
    · rw [processRow_eq]
      dsimp only
      rw [hmsL, exceptMap_ok]
    · intro k
      have hFu := dictGet_applyAssigns (msF.map (fun a => (a.1, a.2.2)))
        (applyAssigns [] (dimAssigns dh dv)) k
      have hLa := dictGet_applyAssigns (msL.map (fun a => (a.1, a.2.2)))
        (applyAssigns [] (dimAssigns dh dv)) k
      rw [hFu, hLa, hF, List.map_append, lastAssign_append]
      cases hlk : lastAssign (msL.map (fun a => (a.1, a.2.2))) k with
      | some v => rfl
      | none =>
        have hknot : k ∉ mh := by
          intro hk
          rw [← hkeysL] at hk
          rw [List.mem_map] at hk
          obtain ⟨a, ha, hak⟩ := hk
          have hne := (lastAssign_none_iff _ _).mp hlk (a.1, a.2.2)
            (List.mem_map.mpr ⟨a, ha, rfl⟩)
          exact hne hak
        have hEnone : lastAssign (msE.map (fun a => (a.1, a.2.2))) k = none := by
          rw [lastAssign_none_iff]
          intro b hb
          rw [List.mem_map] at hb
          obtain ⟨a, ha, rfl⟩ := hb
          intro hak
          exact hknot (hak ▸ metricAssigns_keys_mem mh (vss.map some) msE hE a ha)
        rw [hEnone]

/-- C9 witness: with one earlier range ["1"] and a covering last range ["2"],
the returned row reads everywhere like the last range alone. -/
theorem claim_C9_last_range_wins_witness :
    ∃ dFull dLast,
      processRow [] [("m")] ⟨[], [[("1")]].map some ++ [some [("2")]]⟩ = Except.ok dFull
      ∧ processRow [] [("m")] ⟨[], [some [("2")]]⟩ = Except.ok dLast
      ∧ ∀ k, dictGet dFull k = dictGet dLast k := by
  refine claim_C9_last_range_wins [] [("m")] [] [[("1")]] [("2")] (by norm_num) ?_ ?_
  · intro vs hvs p hp
    rw [List.mem_singleton] at hvs
    subst hvs
    rw [show ([("m")].zip [("1")]) = [((("m") : String), ("1"))] from rfl,
      List.mem_singleton] at hp
    subst hp
    exact ⟨GAValue.int 1, rfl⟩
  · intro p hp
    rw [show ([("m")].zip [("2")]) = [((("m") : String), ("2"))] from rfl,
      List.mem_singleton] at hp
    subst hp
    exact ⟨GAValue.int 2, rfl⟩

/-- C10: get_ga_data is not total over metric value strings — "1,5" (a comma
string that is not a float literal), the empty string and "N/A" (neither int
literals) each raise ValueError — and extraction succeeds only when every
value set is present and every paired metric value string converts. -/
theorem claim_C10_partiality :
    get_ga_data exComma = Except.error PyErr.valueError
    ∧ get_ga_data exEmptyVal = Except.error PyErr.valueError
    ∧ get_ga_data exNA = Except.error PyErr.valueError
    ∧ (∀ (resp : Response) (l : List Dict), get_ga_data resp = Except.ok l →
        ∀ rep ∈ resp.reports, ∀ row ∈ rep.data.rows, ∀ ovs ∈ row.metrics,
          ∃ vs, ovs = some vs
            ∧ ∀ p ∈ rep.columnHeader.metricHeaderEntries.zip vs,
                ∃ x, convertMetric p.2 = Except.ok x) := by
  refine ⟨rfl, rfl, rfl, ?_⟩
  intro resp l h rep hrep row hrow ovs hovs
  obtain ⟨rl, hrl⟩ := get_ga_data_ok_rows resp l h rep hrep
  obtain ⟨d, hd⟩ := mapM_ok_mem _ rep.data.rows rl hrl row hrow
  rw [processRow_eq] at hd
  cases hma : metricAssigns rep.columnHeader.metricHeaderEntries row.metrics with
  | error e =>
    rw [hma, exceptMap_err] at hd
    exact Except.noConfusion hd
  | ok ms =>
    unfold metricAssigns at hma
    cases hsets : row.metrics.mapM (convSet rep.columnHeader.metricHeaderEntries) with
    | error e =>
      rw [hsets, exceptBind_err] at hma
      exact Except.noConfusion hma
    | ok lss =>
      obtain ⟨li, hli⟩ := mapM_ok_mem _ row.metrics lss hsets ovs hovs
      cases ovs with
      | none => exact Except.noConfusion hli
      | some vs =>
        refine ⟨vs, rfl, ?_⟩
        intro p hp
        dsimp only [convSet] at hli
        obtain ⟨y, hy⟩ := mapM_ok_mem convEntry _ li hli p hp
        unfold convEntry at hy
        cases hc : convertMetric p.2 with
        | error e =>
          rw [hc, exceptMap_err] at hy
          exact Except.noConfusion hy
        | ok x => exact ⟨x, rfl⟩

/-- C10 witness: a well-formed response extracts successfully, and its paired
metric value "7" indeed converts. -/
theorem claim_C10_partiality_witness :
    get_ga_data exGood
      = Except.ok [[(("ga:d"), GAValue.str ("x")), (("ga:m"), GAValue.int 7)]]
    ∧ ∃ vs, (some [("7")] : Option (List String)) = some vs
        ∧ ∀ p ∈ [("ga:m")].zip vs, ∃ x, convertMetric p.2 = Except.ok x := by
  refine ⟨rfl, ?_⟩
  exact claim_C10_partiality.2.2.2 exGood
    [[(("ga:d"), GAValue.str ("x")), (("ga:m"), GAValue.int 7)]] rfl
    ⟨⟨[("ga:d")], [("ga:m")]⟩, ⟨[⟨[("x")], [some [("7")]]⟩], some 1, [], []⟩, none⟩
    (List.mem_singleton.mpr rfl)
    ⟨[("x")], [some [("7")]]⟩ (List.mem_singleton.mpr rfl)
    (some [("7")]) (List.mem_singleton.mpr rfl)

/-- C5 counterexample: an HTTPError whose reason is not retryable makes the
retry loop break and get_dataframes return None — the error is not raised. -/
theorem claim_C5_counterexample :
    get_dataframes (fun _ => AttemptOutcome.httpErr ("badRequest")) (fun _ => 0)
      = (RetryResult.noResult, [], 1)
    ∧ ∀ e, RetryResult.noResult ≠ RetryResult.raised e := by
  exact ⟨rfl, fun e hh => RetryResult.noConfusion hh⟩

/-- C5 (amended): a first-attempt failure the loop does not retry causes no
backoff sleep and no further attempt: an exception that is not an HTTPError
propagates, while an HTTPError with a non-retryable reason makes the loop
break, so the wrapper returns None instead of raising. -/
theorem claim_C5_nonretryable (attempt : Nat → AttemptOutcome) (jitter : Nat → ℚ) :
    (∀ e, attempt 0 = AttemptOutcome.exn e →
        get_dataframes attempt jitter = (RetryResult.raised e, [], 1))
    ∧ (∀ r, attempt 0 = AttemptOutcome.httpErr r → RETRYABLE.contains r = false →
        get_dataframes attempt jitter = (RetryResult.noResult, [], 1)) := by
  constructor
  · intro e he
    unfold get_dataframes
    simp only [retryAux, he]
  · intro r hr hnr
    unfold get_dataframes
    simp only [retryAux, hr, hnr, Bool.false_eq_true, if_false]

/-- C5 witness: a concrete non-HTTPError failure propagates at once, and a
concrete non-retryable HTTPError yields None at once, both without sleeping. -/
theorem claim_C5_nonretryable_witness :
    get_dataframes (fun _ => AttemptOutcome.exn PyErr.valueError) (fun _ => 0)
      = (RetryResult.raised PyErr.valueError, [], 1)
    ∧ get_dataframes (fun _ => AttemptOutcome.httpErr ("badRequest"))
        (fun _ => (1 : ℚ)/2)
      = (RetryResult.noResult, [], 1) := by
  exact ⟨(claim_C5_nonretryable _ _).1 PyErr.valueError rfl,
    (claim_C5_nonretryable _ _).2 ("badRequest") rfl rfl⟩

/-- Unrolling one retryable attempt of the retry loop. -/
theorem retryAux_retry_step (a : Nat → AttemptOutcome) (j : Nat → ℚ) (n fuel : Nat)
    (r : String) (har : a n = AttemptOutcome.httpErr r)
    (hr : RETRYABLE.contains r = true) :
    retryAux a j n (fuel + 1)
      = ((retryAux a j (n + 1) fuel).1,
         ((2 : ℚ) ^ n + j n) :: (retryAux a j (n + 1) fuel).2.1,
         (retryAux a j (n + 1) fuel).2.2 + 1) := by
  simp only [retryAux, har, hr, if_true]

/-- Unrolling a successful attempt of the retry loop. -/
theorem retryAux_ok_step (a : Nat → AttemptOutcome) (j : Nat → ℚ) (n fuel : Nat)
    (df : DataFrame) (har : a n = AttemptOutcome.ok df) :
    retryAux a j n (fuel + 1) = (RetryResult.returned df, [], 1) := by
  simp only [retryAux, har]

/-- C6: with retryable failures on exactly the first four attempts and success
on the fifth, get_dataframes returns the result after exactly four backoff
sleeps of 2^attempt plus that attempt's jitter — each within
[2^attempt, 2^attempt + 1) for jitter in [0,1); the loop never makes more
than five attempts, and five retryable failures yield no result. -/
theorem claim_C6_retry_backoff (attempt : Nat → AttemptOutcome) (jitter : Nat → ℚ)
    (df : DataFrame)
    (hfail : ∀ i < 4, ∃ r, attempt i = AttemptOutcome.httpErr r
      ∧ RETRYABLE.contains r = true)
    (hsucc : attempt 4 = AttemptOutcome.ok df)
    (hjit : ∀ n, 0 ≤ jitter n ∧ jitter n < 1) :
    get_dataframes attempt jitter
      = (RetryResult.returned df,
         [2 ^ 0 + jitter 0, 2 ^ 1 + jitter 1, 2 ^ 2 + jitter 2, 2 ^ 3 + jitter 3], 5)
    ∧ (∀ i, (2 : ℚ) ^ i ≤ 2 ^ i + jitter i ∧ (2 : ℚ) ^ i + jitter i < 2 ^ i + 1)
    ∧ (∀ (a : Nat → AttemptOutcome) (j : Nat → ℚ), (get_dataframes a j).2.2 ≤ 5)
    ∧ (∀ (a : Nat → AttemptOutcome) (j : Nat → ℚ),
        (∀ i < 5, ∃ r, a i = AttemptOutcome.httpErr r ∧ RETRYABLE.contains r = true) →
        (get_dataframes a j).1 = RetryResult.noResult) := by
  obtain ⟨r0, h0, hr0⟩ := hfail 0 (by norm_num)
  obtain ⟨r1, h1, hr1⟩ := hfail 1 (by norm_num)
  obtain ⟨r2, h2, hr2⟩ := hfail 2 (by norm_num)
  obtain ⟨r3, h3, hr3⟩ := hfail 3 (by norm_num)
  refine ⟨?_, ?_, ?_, ?_⟩
  · show retryAux attempt jitter 0 5 = _
    rw [show (5 : Nat) = 4 + 1 from rfl, retryAux_retry_step _ _ _ _ _ h0 hr0,
      show (4 : Nat) = 3 + 1 from rfl, retryAux_retry_step _ _ _ _ _ h1 hr1,
      show (3 : Nat) = 2 + 1 from rfl, retryAux_retry_step _ _ _ _ _ h2 hr2,
      show (2 : Nat) = 1 + 1 from rfl, retryAux_retry_step _ _ _ _ _ h3 hr3,
      show (1 : Nat) = 0 + 1 from rfl, retryAux_ok_step _ _ _ _ _ hsucc]
  · intro i
    have hj := hjit i
    constructor
    · linarith [hj.1]
    · linarith [hj.2]
  · intro a j
    exact retryAux_le a j 5 0
  · intro a j hf
    exact retryAux_allFail a j 5 0 (fun i hge hlt => hf i (by omega))

/-- C6 witness: four concrete quota failures followed by success return the
result after sleeps 2^0..2^3 plus a jitter of one half. -/
theorem claim_C6_retry_backoff_witness :
    get_dataframes
        (fun n => if n < 4 then AttemptOutcome.httpErr ("quotaExceeded")
          else AttemptOutcome.ok ⟨[], []⟩)
        (fun _ => (1 : ℚ)/2)
      = (RetryResult.returned ⟨[], []⟩,
         [2 ^ 0 + (1 : ℚ)/2, 2 ^ 1 + (1 : ℚ)/2, 2 ^ 2 + (1 : ℚ)/2, 2 ^ 3 + (1 : ℚ)/2],
         5) := by
  have h := claim_C6_retry_backoff
      (fun n => if n < 4 then AttemptOutcome.httpErr ("quotaExceeded")
        else AttemptOutcome.ok ⟨[], []⟩)
      (fun _ => (1 : ℚ)/2) ⟨[], []⟩
      (fun i hi => ⟨("quotaExceeded"), by simp [hi], rfl⟩)
      (by simp)
      (fun n => ⟨by norm_num, by norm_num⟩)
  exact h.1
